import Mathlib

/-!
Shallow embedding of the `parse_list` Rust crate (src/lib.rs).

Modelling choices:
* `Result<A, E>` is `Except E A`; `io::Error` is an arbitrary type `ι`.
* A Rust iterator over `Result<String, io::Error>` is modelled by the list of
  items it will yield; `next` is head/tail consumption (`listNext`).
* A `FromStr` target type `T` is modelled by its parse capability
  `parse : String → Except ε τ` (`T::Err` is `ε`, `T` is `τ`).
* A `BufRead` source over in-memory UTF-8 content is its `String` contents;
  its `lines()` output is computed by `bufLines`, which mirrors
  `BufRead::lines` (split at `'\n'`, strip a trailing `'\r'`, no final empty
  line for a trailing newline).
* `File::open` is modelled by a function `fs : String → Except ι String`
  from paths to file contents (or an open error).
-/

namespace ParseList

/-- Rust `char::is_whitespace`: the Unicode White_Space property. -/
def rustWhitespace (c : Char) : Bool :=
  c = ' ' || c = '\t' || c = '\n' || c = '\u000B' || c = '\u000C' || c = '\r' ||
  c = '\u0085' || c = ' ' || c = ' ' ||
  (' ' ≤ c && c ≤ ' ') ||
  c = ' ' || c = ' ' || c = ' ' || c = ' ' || c = '　'

/-- Rust `str::trim`: remove leading and trailing whitespace. -/
def rustTrim (s : String) : String :=
  ⟨((s.data.dropWhile rustWhitespace).reverse.dropWhile rustWhitespace).reverse⟩

/-- The private `nonblank` closure of `from_bufread_lines` (src/lib.rs:102-106):
an `Ok` line is kept iff its trimmed text is nonempty; an `Err` line is always
kept (`unwrap_or(true)`). -/
def nonblank {ι : Type} (lr : Except ι String) : Bool :=
  let trimmed : Except ι Bool := lr.map fun l => !(rustTrim l).isEmpty
  match trimmed with
  | .ok b => b
  | .error _ => true

/-- `ParseListError` (src/lib.rs:154-159): two variants, I/O error or the
target type's parse error. -/
inductive ParseListError (ι ε : Type) where
  | Io : ι → ParseListError ι ε
  | Parse : ε → ParseListError ι ε
deriving DecidableEq

/-- `impl Display for ParseListError` (src/lib.rs:164-172): delegate to the
display of the wrapped error. `fmtIo` and `fmtE` are the `Display` impls of
`io::Error` and of the target type's error. -/
def ParseListError.fmt {ι ε : Type} (fmtIo : ι → String) (fmtE : ε → String) :
    ParseListError ι ε → String
  | .Io e => fmtIo e
  | .Parse e => fmtE e

/-- `string_result_to_item_result` (src/lib.rs:140-152). -/
def string_result_to_item_result {ι ε τ : Type} (parse : String → Except ε τ)
    (v : Except ι String) : Except (ParseListError ι ε) τ :=
  match v with
  | .ok v =>
    match parse v with
    | .ok v => .ok v
    | .error e => .error (.Parse e)
  | .error e => .error (.Io e)

/-- `ParseListIterator` (src/lib.rs:122-125): wraps the underlying line-result
producer; the target type's parse capability stands in for the `FromStr`
bound (the `PhantomData<T>`). -/
structure ParseListIterator (ι ε τ : Type) where
  iter : List (Except ι String)
  parse : String → Except ε τ

/-- `from_iter` (src/lib.rs:115-120). -/
def from_iter {ι ε τ : Type} (parse : String → Except ε τ)
    (i : List (Except ι String)) : ParseListIterator ι ε τ :=
  ⟨i, parse⟩

/-- `from_bufread_lines` (src/lib.rs:97-111): `blines` is the output of the
source's `lines()`; filter out blank lines, delegate to `from_iter`. -/
def from_bufread_lines {ι ε τ : Type} (parse : String → Except ε τ)
    (blines : List (Except ι String)) : ParseListIterator ι ε τ :=
  let without_blanks := blines.filter nonblank
  from_iter parse without_blanks

/-- Rust `Iterator::next` on the underlying producer, modelled on lists. -/
def listNext {α : Type} : List α → Option (α × List α)
  | [] => none
  | x :: xs => some (x, xs)

/-- `Iterator for ParseListIterator`, `next` (src/lib.rs:135-137):
`self.0.next().map(string_result_to_item_result)`. -/
def ParseListIterator.next {ι ε τ : Type} (self : ParseListIterator ι ε τ) :
    Option (Except (ParseListError ι ε) τ × ParseListIterator ι ε τ) :=
  (listNext self.iter).map fun x =>
    (string_result_to_item_result self.parse x.1, ⟨x.2, self.parse⟩)

/-- Drive an iterator through repeated `next` calls, collecting the yielded
items (fuel-indexed; `collect` supplies enough fuel). -/
def runIter {ι ε τ : Type} : Nat → ParseListIterator ι ε τ →
    List (Except (ParseListError ι ε) τ)
  | 0, _ => []
  | fuel + 1, it =>
    match it.next with
    | none => []
    | some (x, it2) => x :: runIter fuel it2

/-- Rust `Iterator::collect`: pull until exhaustion. -/
def ParseListIterator.collect {ι ε τ : Type} (it : ParseListIterator ι ε τ) :
    List (Except (ParseListError ι ε) τ) :=
  runIter it.iter.length it

/-- Strip one trailing carriage return, as `BufRead::lines` does. -/
def stripCR (l : List Char) : List Char :=
  match l.reverse with
  | '\r' :: rest => rest.reverse
  | _ => l

/-- Split at newlines, `BufRead::lines` style: each `'\n'` terminates a line
(the `'\n'` and a preceding `'\r'` are stripped); text after the last `'\n'`
is a final line only if nonempty. -/
def linesAux : List Char → List Char → List (List Char)
  | [], [] => []
  | [], acc => [stripCR acc.reverse]
  | '\n' :: cs, acc => stripCR acc.reverse :: linesAux cs []
  | c :: cs, acc => linesAux cs (c :: acc)

/-- The `lines()` of a buffered reader over in-memory UTF-8 content `s`. -/
def bufLines (s : String) : List String :=
  (linesAux s.data []).map fun l => ⟨l⟩

/-- `BufReader` (std): a buffering wrapper around a reader. Buffering is
unobservable at the line level, so only the inner reader is modelled. -/
structure BufReader (R : Type) where
  inner : R

/-- `BufReader::new`. -/
def BufReader.new {R : Type} (r : R) : BufReader R :=
  ⟨r⟩

/-- `lines()` of a `BufReader` over an in-memory UTF-8 reader: every line
reads successfully. -/
def BufReader.lines {ι : Type} (b : BufReader String) : List (Except ι String) :=
  (bufLines b.inner).map Except.ok

/-- `from_read_lines` (src/lib.rs:89-95): wrap the reader in a `BufReader`,
delegate to `from_bufread_lines`. -/
def from_read_lines {ι ε τ : Type} (parse : String → Except ε τ) (r : String) :
    ParseListIterator ι ε τ :=
  let br := BufReader.new r
  from_bufread_lines parse (BufReader.lines br)

/-- `from_file_lines` (src/lib.rs:82-87): `File::open(p)?`, modelled by the
filesystem map `fs`; on success delegate to `from_read_lines`. -/
def from_file_lines {ι ε τ : Type} (parse : String → Except ε τ)
    (fs : String → Except ι String) (p : String) :
    Except ι (ParseListIterator ι ε τ) :=
  match fs p with
  | .error e => .error e
  | .ok f => .ok (from_read_lines parse f)

/-- The error kinds of `core::num::ParseIntError` reachable when parsing `u32`. -/
inductive IntErrorKind where
  | empty
  | invalidDigit
  | posOverflow
deriving DecidableEq

/-- Digit loop of Rust `from_str_radix` at radix 10 for `u32`: accumulate
digits with an overflow check against `2 ^ 32`. -/
def parseU32Digits : List Char → Nat → Except IntErrorKind Nat
  | [], acc => .ok acc
  | c :: cs, acc =>
    if c.isDigit then
      let v := acc * 10 + (c.toNat - '0'.toNat)
      if v < 2 ^ 32 then parseU32Digits cs v
      else .error .posOverflow
    else .error .invalidDigit

/-- Rust `<u32 as FromStr>::from_str`: empty input is `Empty`; a lone sign or
a minus sign is `InvalidDigit`; otherwise parse the decimal digits. -/
def parseU32 (s : String) : Except IntErrorKind Nat :=
  match s.data with
  | [] => .error .empty
  | ['+'] => .error .invalidDigit
  | '+' :: cs => parseU32Digits cs 0
  | '-' :: _ => .error .invalidDigit
  | cs => parseU32Digits cs 0

/-- Rust `Result::ok`, as used by `filter_map(Result::ok)`. -/
def resultOk {α β : Type} : Except α β → Option β
  | .ok v => some v
  | .error _ => none

end ParseList

namespace ParseList

theorem nonblank_ok {ι : Type} (l : String) :
    nonblank (ι := ι) (Except.ok l) = !(rustTrim l).isEmpty := rfl

theorem nonblank_error {ι : Type} (e : ι) :
    nonblank (Except.error e : Except ι String) = true := rfl

theorem runIter_from_iter {ι ε τ : Type} (parse : String → Except ε τ)
    (lrs : List (Except ι String)) :
    runIter lrs.length (from_iter parse lrs)
      = lrs.map (string_result_to_item_result parse) := by
  induction lrs with
  | nil => rfl
  | cons hd tl ih =>
    show string_result_to_item_result parse hd
        :: runIter tl.length (from_iter parse tl)
      = string_result_to_item_result parse hd
        :: tl.map (string_result_to_item_result parse)
    exact congrArg (List.cons (string_result_to_item_result parse hd)) ih

theorem collect_from_iter {ι ε τ : Type} (parse : String → Except ε τ)
    (lrs : List (Except ι String)) :
    (from_iter parse lrs).collect = lrs.map (string_result_to_item_result parse) :=
  runIter_from_iter parse lrs

theorem collect_from_bufread {ι ε τ : Type} (parse : String → Except ε τ)
    (blines : List (Except ι String)) :
    (from_bufread_lines parse blines).collect
      = (blines.filter nonblank).map (string_result_to_item_result parse) :=
  collect_from_iter parse (blines.filter nonblank)

end ParseList

namespace ParseList

/-- C1: for an input element `Ok(text)`, the adapter's next step invokes the
target type's parse function on that exact text, emitting `Ok(value)` when
parsing succeeds and `Err(Parse(e))` carrying the target type's own error
value when parsing fails. -/
theorem ok_line_is_parsed {ι ε τ : Type} (parse : String → Except ε τ)
    (text : String) (rest : List (Except ι String)) :
    (∀ v : τ, parse text = Except.ok v →
      (from_iter parse (Except.ok text :: rest)).next
        = some (Except.ok v, from_iter parse rest))
    ∧ (∀ e : ε, parse text = Except.error e →
      (from_iter parse (Except.ok text :: rest)).next
        = some (Except.error (ParseListError.Parse e), from_iter parse rest)) := by
  constructor
  · intro v hv
    simp [from_iter, ParseListIterator.next, listNext,
      string_result_to_item_result, hv]
  · intro e he
    simp [from_iter, ParseListIterator.next, listNext,
      string_result_to_item_result, he]

/-- Witness for C1 at `parseU32`: `"7"` parses to `7`; `"boop"` fails with an
invalid-digit error wrapped in `Parse`. -/
theorem ok_line_is_parsed_witness :
    (from_iter (ι := Unit) parseU32 [Except.ok "7"]).next
      = some (Except.ok 7, from_iter parseU32 [])
    ∧ (from_iter (ι := Unit) parseU32 [Except.ok "boop"]).next
      = some (Except.error (ParseListError.Parse IntErrorKind.invalidDigit),
              from_iter parseU32 []) :=
  ⟨(ok_line_is_parsed parseU32 "7" []).1 7 rfl,
   (ok_line_is_parsed parseU32 "boop" []).2 IntErrorKind.invalidDigit rfl⟩

/-- C2: over any finite input list, the adapter built by `from_iter` yields
exactly one output per input element, in the same order — the output list is
the elementwise image of the input, so it has the same length, the element at
every position `k` is the translation of the input at `k`, and a failure at
position `k` does not terminate the sequence. -/
theorem from_iter_one_output_per_input {ι ε τ : Type}
    (parse : String → Except ε τ) (lrs : List (Except ι String)) :
    (from_iter parse lrs).collect
        = lrs.map (string_result_to_item_result parse)
    ∧ (from_iter parse lrs).collect.length = lrs.length
    ∧ ∀ k : Nat, ((from_iter parse lrs).collect)[k]?
        = (lrs[k]?).map (string_result_to_item_result parse) := by
  refine ⟨collect_from_iter parse lrs, ?_, ?_⟩
  · rw [collect_from_iter parse lrs, List.length_map]
  · intro k
    rw [collect_from_iter parse lrs, List.getElem?_map]

/-- C3: for an input element `Err(e)`, the adapter emits `Err(Io(e))` carrying
the same I/O error unchanged; the emitted item is the same for every parse
function, so the target type's parse capability is never invoked. -/
theorem io_error_passed_through_unparsed {ι ε τ : Type} (e : ι)
    (rest : List (Except ι String)) :
    (∀ parse : String → Except ε τ,
      (from_iter parse (Except.error e :: rest)).next
        = some (Except.error (ParseListError.Io e), from_iter parse rest))
    ∧ ∀ parse₁ parse₂ : String → Except ε τ,
      string_result_to_item_result parse₁ (Except.error e : Except ι String)
        = string_result_to_item_result parse₂ (Except.error e) :=
  ⟨fun _ => rfl, fun _ _ => rfl⟩

end ParseList

namespace ParseList

/-- C4: in the line-splitting construction path, a successfully read line that
is blank or whitespace-only is excluded from the output; an all-blank input
yields zero output elements; and a line result that is an I/O failure is never
excluded, its error being passed through as the next output. -/
theorem bufread_blank_line_policy {ι ε τ : Type} (parse : String → Except ε τ) :
    (∀ (l : String) (lrs : List (Except ι String)),
      (rustTrim l).isEmpty = true →
      (from_bufread_lines parse (Except.ok l :: lrs)).collect
        = (from_bufread_lines parse lrs).collect)
    ∧ (∀ lrs : List (Except ι String),
      (∀ lr ∈ lrs, ∃ l : String, lr = Except.ok l ∧ (rustTrim l).isEmpty = true) →
      (from_bufread_lines parse lrs).collect = [])
    ∧ (∀ (e : ι) (lrs : List (Except ι String)),
      (from_bufread_lines parse (Except.error e :: lrs)).collect
        = Except.error (ParseListError.Io e)
          :: (from_bufread_lines parse lrs).collect) := by
  refine ⟨?_, ?_, ?_⟩
  · intro l lrs h
    have hnb : nonblank (ι := ι) (Except.ok l) = false := by
      rw [nonblank_ok, h]
      rfl
    rw [collect_from_bufread, collect_from_bufread, List.filter_cons, hnb]
    simp
  · intro lrs
    induction lrs with
    | nil => intro _; rfl
    | cons hd tl ih =>
      intro hall
      obtain ⟨l, rfl, hblank⟩ := hall hd (List.mem_cons_self hd tl)
      have hnb : nonblank (ι := ι) (Except.ok l) = false := by
        rw [nonblank_ok, hblank]
        rfl
      have htl := ih fun lr hm => hall lr (List.mem_cons_of_mem _ hm)
      rw [collect_from_bufread] at htl ⊢
      rw [List.filter_cons, hnb]
      simpa using htl
  · intro e lrs
    rw [collect_from_bufread, collect_from_bufread, List.filter_cons,
      nonblank_error]
    simp [string_result_to_item_result]

/-- Witness for C4: a blank line `" "` is dropped, the all-blank input
`["", " \t"]` yields nothing, and an unreadable line survives as an `Io`
failure. -/
theorem bufread_blank_line_policy_witness :
    (from_bufread_lines (ι := Unit) parseU32 [Except.ok " ", Except.ok "1"]).collect
      = (from_bufread_lines parseU32 [Except.ok "1"]).collect
    ∧ (from_bufread_lines (ι := Unit) parseU32 [Except.ok "", Except.ok " \t"]).collect = []
    ∧ (from_bufread_lines parseU32 [Except.error (), Except.ok "2"]).collect
      = Except.error (ParseListError.Io ())
        :: (from_bufread_lines parseU32 [Except.ok "2"]).collect :=
  ⟨(bufread_blank_line_policy parseU32).1 " " [Except.ok "1"] rfl,
   (bufread_blank_line_policy parseU32).2.1 [Except.ok "", Except.ok " \t"]
     (by
       intro lr h
       simp only [List.mem_cons, List.not_mem_nil, or_false] at h
       rcases h with rfl | rfl
       · exact ⟨"", rfl, rfl⟩
       · exact ⟨" \t", rfl, rfl⟩),
   (bufread_blank_line_policy parseU32).2.2 () [Except.ok "2"]⟩

/-- C5: `from_file_lines` is eager about the open: if `File::open` fails the
error is returned immediately and no iterator is produced; if it succeeds the
result is the iterator built by `from_read_lines`, whose failures are all
per-element. -/
theorem from_file_lines_eager_open {ι ε τ : Type} (parse : String → Except ε τ)
    (fs : String → Except ι String) (p : String) :
    (∀ e : ι, fs p = Except.error e →
      from_file_lines parse fs p = Except.error e)
    ∧ (∀ content : String, fs p = Except.ok content →
      from_file_lines parse fs p = Except.ok (from_read_lines parse content)) := by
  constructor
  · intro e he
    simp [from_file_lines, he]
  · intro content hc
    simp [from_file_lines, hc]

/-- Witness for C5 on a one-file filesystem: opening `"missing"` fails with
the open error, opening `"list"` yields the reader-based iterator. -/
theorem from_file_lines_eager_open_witness :
    from_file_lines (τ := Nat) parseU32
        (fun q => if q = "list" then Except.ok "0\n1" else Except.error "NotFound")
        "missing"
      = Except.error "NotFound"
    ∧ from_file_lines parseU32
        (fun q => if q = "list" then Except.ok "0\n1" else Except.error "NotFound")
        "list"
      = Except.ok (from_read_lines parseU32 "0\n1") :=
  ⟨(from_file_lines_eager_open parseU32
      (fun q => if q = "list" then Except.ok "0\n1" else Except.error "NotFound")
      "missing").1 "NotFound" rfl,
   (from_file_lines_eager_open parseU32
      (fun q => if q = "list" then Except.ok "0\n1" else Except.error "NotFound")
      "list").2 "0\n1" rfl⟩

/-- C6: the line-splitting path on `"0\n1\n2\n3\n4"` with the unsigned-integer
target produces exactly five successes `0, 1, 2, 3, 4` in order. -/
theorem five_line_scenario :
    (from_read_lines (ι := Unit) parseU32 "0\n1\n2\n3\n4").collect
      = [Except.ok 0, Except.ok 1, Except.ok 2, Except.ok 3, Except.ok 4] := rfl

/-- C7: `from_iter` on `[Ok "0", Err e, Ok "2"]` with the unsigned-integer
target yields exactly `[Ok 0, Err (Io e), Ok 2]`; filtering to successes
yields `[0, 2]`. -/
theorem mixed_iter_scenario {ι : Type} (e : ι) :
    (from_iter parseU32 [Except.ok "0", Except.error e, Except.ok "2"]).collect
      = [Except.ok 0, Except.error (ParseListError.Io e), Except.ok 2]
    ∧ ((from_iter parseU32
          [Except.ok "0", Except.error e, Except.ok "2"]).collect.filterMap
        resultOk)
      = [0, 2] :=
  ⟨rfl, rfl⟩

end ParseList

namespace ParseList

/-- C8: when the underlying producer is exhausted the adapter's `next` returns
`none`, and the factories are pure layerings: `from_read_lines` equals
`from_bufread_lines` applied to a line-buffering wrapper of the reader, and
`from_file_lines` on a successfully opened path equals `from_read_lines` on
the opened file. -/
theorem exhaustion_and_factory_layering {ι ε τ : Type}
    (parse : String → Except ε τ) :
    ((from_iter (ι := ι) parse []).next = none)
    ∧ (∀ it : ParseListIterator ι ε τ, it.iter = [] → it.next = none)
    ∧ (∀ r : String, from_read_lines (ι := ι) parse r
        = from_bufread_lines parse (BufReader.lines (BufReader.new r)))
    ∧ (∀ (fs : String → Except ι String) (p content : String),
        fs p = Except.ok content →
        from_file_lines parse fs p = Except.ok (from_read_lines parse content)) := by
  refine ⟨rfl, ?_, fun _ => rfl, ?_⟩
  · intro it h
    cases it with
    | mk iter p =>
      cases h
      rfl
  · intro fs p content hc
    simp [from_file_lines, hc]

/-- Witness for C8: the empty adapter is exhausted, and a one-file filesystem
opens `"list"` into the reader-based iterator. -/
theorem exhaustion_and_factory_layering_witness :
    (from_iter (ι := Unit) parseU32 []).next = none
    ∧ from_file_lines parseU32
        (fun q => if q = "list" then Except.ok "3" else Except.error "NotFound")
        "list"
      = Except.ok (from_read_lines parseU32 "3") :=
  ⟨(exhaustion_and_factory_layering (ι := Unit) parseU32).2.1
      (from_iter parseU32 []) rfl,
   (exhaustion_and_factory_layering parseU32).2.2.2
      (fun q => if q = "list" then Except.ok "3" else Except.error "NotFound")
      "list" "3" rfl⟩

/-- C9: in the line-splitting path, trimming only decides blankness: a
successfully read line that passes the blank filter is handed to
`string_result_to_item_result` — and hence to the parse function — with its
original text intact, surrounding whitespace included. -/
theorem nonblank_line_parsed_untrimmed {ι ε τ : Type}
    (parse : String → Except ε τ) (l : String) (lrs : List (Except ι String)) :
    nonblank (ι := ι) (Except.ok l) = true →
    (from_bufread_lines parse (Except.ok l :: lrs)).next
      = some (string_result_to_item_result parse (Except.ok l),
              from_bufread_lines parse lrs) := by
  intro h
  show (from_iter parse ((Except.ok l :: lrs).filter nonblank)).next = _
  rw [List.filter_cons, h]
  rfl

/-- Witness for C9: `" 1 "` is not blank, so it passes the filter, and the
unsigned-integer parse receives it untrimmed and rejects the surrounding
whitespace with an invalid-digit `Parse` failure. -/
theorem nonblank_line_parsed_untrimmed_witness :
    nonblank (ι := Unit) (Except.ok " 1 ") = true
    ∧ (from_bufread_lines (ι := Unit) parseU32 [Except.ok " 1 "]).next
      = some (Except.error (ParseListError.Parse IntErrorKind.invalidDigit),
              from_bufread_lines parseU32 []) :=
  ⟨rfl, (nonblank_line_parsed_untrimmed parseU32 " 1 " [] rfl).trans rfl⟩

/-- C10: displaying a `ParseListError` delegates exactly to the display of the
wrapped error: the `Io` variant displays as the contained I/O error and the
`Parse` variant as the target type's error value, unaltered. -/
theorem display_delegates_to_wrapped_error {ι ε : Type}
    (fmtIo : ι → String) (fmtE : ε → String) :
    (∀ e : ι, (ParseListError.Io e : ParseListError ι ε).fmt fmtIo fmtE = fmtIo e)
    ∧ (∀ e : ε, (ParseListError.Parse e : ParseListError ι ε).fmt fmtIo fmtE = fmtE e) :=
  ⟨fun _ => rfl, fun _ => rfl⟩

end ParseList
